import Mathlib

/-!
Shallow embedding of `src/datacontract/export/avro_converter.py`: the
conversion of a data-contract model (a tree of field descriptors) into an
Avro schema tree.

Modelling conventions:
* Python dicts (insertion-ordered) become association lists
  `List (String × Avro)`; dict assignment that may overwrite an existing
  key is `setKey` (replaces in place, else appends), mirroring CPython
  semantics.
* The process-wide mutable set `avro_data_types_cache` is threaded
  explicitly: every converter function takes the cache and returns the
  updated cache.
* Python exceptions (attribute/key errors raised on malformed array
  fields, lines 167-173 of the source) are modelled by `Option`: `none`
  is an uncaught exception.
* The pydantic `Field` model itself is not under src/; its attributes are
  modelled from the spec (§3) as exactly the attributes the converter
  reads, with string-valued `avroType` / `avroNamespace` /
  `avroLogicalType` overrides as described in spec §6.
-/

namespace DCAvro

/-- JSON-like values of the emitted Avro schema (the converter builds
`json.dumps`-serialisable dicts, lists, strings, ints and `None`). -/
inductive Avro where
  | null : Avro
  | str : String → Avro
  | int : Int → Avro
  | arr : List Avro → Avro
  | obj : List (String × Avro) → Avro

/-- One entry of `field.lineage["inputFields"]`: a `{name, field}`
provenance pair (spec §3). -/
structure LineageEntry where
  name : String
  field : String

/-- Modelled from the spec: the `lineage` attribute of a field descriptor,
"optional structure with an `inputFields` sequence of {name, field}
provenance pairs" (spec §3); the pydantic model is not under src/.
`inputFields = none` models the key `"inputFields"` being absent. -/
structure Lineage where
  inputFields : Option (List LineageEntry)

/-- The recognised keys of a field's or model's `config` mapping.  The
converter reads no other key (spec §6: "recognized keys only —
unrecognized keys are ignored").  `hasName` models presence of the key
`"name"` (only membership is tested, source line 168).  `avroDefault` and
`values` hold arbitrary JSON values; the three name-like overrides are
strings. -/
structure Config where
  avroType : Option String
  avroNamespace : Option String
  avroLogicalType : Option String
  avroDefault : Option Avro
  values : Option Avro
  hasName : Bool

/-- Modelled from the spec (§3): the input field-descriptor tree; the
attributes are the ones the converter reads.  `items` is the element
descriptor of an array field (absent elsewhere), `fields` the ordered
name→descriptor mapping of a structured field. -/
inductive Field where
  | mk (type : Option String) (required : Option Bool) (description : Option String)
      (title : Option String) (enum : List String) (scale : Option Int)
      (precision : Option Int) (items : Option Field)
      (fields : List (String × Field)) (tags : Option (List String))
      (relatedTerms : List String) (lineage : Option Lineage)
      (config : Option Config) : Field

@[simp] def Field.type : Field → Option String
  | .mk t _ _ _ _ _ _ _ _ _ _ _ _ => t

@[simp] def Field.required : Field → Option Bool
  | .mk _ r _ _ _ _ _ _ _ _ _ _ _ => r

@[simp] def Field.description : Field → Option String
  | .mk _ _ d _ _ _ _ _ _ _ _ _ _ => d

@[simp] def Field.title : Field → Option String
  | .mk _ _ _ ti _ _ _ _ _ _ _ _ _ => ti

@[simp] def Field.enum : Field → List String
  | .mk _ _ _ _ e _ _ _ _ _ _ _ _ => e

@[simp] def Field.scale : Field → Option Int
  | .mk _ _ _ _ _ s _ _ _ _ _ _ _ => s

@[simp] def Field.precision : Field → Option Int
  | .mk _ _ _ _ _ _ p _ _ _ _ _ _ => p

@[simp] def Field.items : Field → Option Field
  | .mk _ _ _ _ _ _ _ i _ _ _ _ _ => i

@[simp] def Field.fields : Field → List (String × Field)
  | .mk _ _ _ _ _ _ _ _ fs _ _ _ _ => fs

@[simp] def Field.tags : Field → Option (List String)
  | .mk _ _ _ _ _ _ _ _ _ tg _ _ _ => tg

@[simp] def Field.relatedTerms : Field → List String
  | .mk _ _ _ _ _ _ _ _ _ _ rt _ _ => rt

@[simp] def Field.lineage : Field → Option Lineage
  | .mk _ _ _ _ _ _ _ _ _ _ _ l _ => l

@[simp] def Field.config : Field → Option Config
  | .mk _ _ _ _ _ _ _ _ _ _ _ _ c => c

/-- The model handed to `to_avro_schema` (source lines 16-25): namespace,
config overrides, ordered fields, description.  `ns` models
`model.namespace`. -/
structure Model where
  ns : Option String
  config : Option Config
  fields : List (String × Field)
  description : Option String

/-- Python string interpolation of a possibly-`None` namespace:
`f"{namespace}.{name}"` renders `None` as the string `"None"`. -/
def pyOptStr : Option String → String
  | none => "None"
  | some s => s

/-- A possibly-`None` Python string placed into a dict value
(`"name": field.title`, source line 77). -/
def optStrAvro : Option String → Avro
  | none => Avro.null
  | some s => Avro.str s

/-- `field.config is not None and "name" in field.config` (source line 168). -/
def cfgHasName : Option Config → Bool
  | some c => c.hasName
  | none => false

/-- Effective namespace of a structured field (source lines 146-149):
the `avroNamespace` config override if present, else the enclosing
namespace. -/
def structNs (cfg : Option Config) (ns : Option String) : Option String :=
  match cfg with
  | some c =>
    match c.avroNamespace with
    | some s => some s
    | none => ns
  | none => ns

/-- Effective type name of a structured field (source lines 151-154):
the `avroType` config override if present, else the field name. -/
def structName (cfg : Option Config) (fieldName : String) : String :=
  match cfg with
  | some c =>
    match c.avroType with
    | some s => s
    | none => fieldName
  | none => fieldName

/-- Cache key of a structured field: `f"{avroNamespace}.{avroType}"`
(source lines 156 and 162). -/
def structKey (cfg : Option Config) (fieldName : String) (ns : Option String) : String :=
  pyOptStr (structNs cfg ns) ++ "." ++ structName cfg fieldName

/-- The name string returned for an already-cached structured type
(source lines 157-159): fully qualified when the resolved namespace
differs from the enclosing one, else the bare name. -/
def structRef (cfg : Option Config) (fieldName : String) (ns : Option String) : String :=
  if structNs cfg ns ≠ ns then pyOptStr (structNs cfg ns) ++ "." ++ structName cfg fieldName
  else structName cfg fieldName

/-- Python `avro_field["type"] == "enum"` (source line 74): comparison of
a dict value against the string literal; non-strings compare unequal. -/
def isEnumStr : Avro → Bool
  | .str s => s = "enum"
  | _ => false

/-- Dict assignment `d[k] = v` on an insertion-ordered dict: replaces the
value in place when the key exists, else appends. -/
def setKey : List (String × Avro) → String → Avro → List (String × Avro)
  | [], k, v => [(k, v)]
  | (k', v') :: rest, k, v =>
    if k' = k then (k, v) :: rest else (k', v') :: setKey rest k v

/-- Dict lookup `d[k]` on an association list (first match). -/
def lookupKey : List (String × Avro) → String → Option Avro
  | [], _ => none
  | (k, v) :: rest, k' => if k = k' then some v else lookupKey rest k'

/-- `if description is not None: schema["doc"] = description` (source
lines 36-37 and 53-54) as the contributed dict entries. -/
def docEntry : Option String → List (String × Avro)
  | some d => [("doc", Avro.str d)]
  | none => []

/-- `if namespace is not None: schema["namespace"] = namespace` (source
lines 38-39) as the contributed dict entries. -/
def nsEntry : Option String → List (String × Avro)
  | some s => [("namespace", Avro.str s)]
  | none => []

/-- `tags` passthrough (source lines 59-61): present only when the tag
list exists and is non-empty. -/
def tagsEntries (f : Field) : List (String × Avro) :=
  match f.tags with
  | some ts => if ts.length > 0 then [("tags", .arr (ts.map .str))] else []
  | none => []

/-- `x-glossary` passthrough (source lines 63-65): `relatedTerms` always
exists on the modelled descriptor, so only non-emptiness is tested. -/
def glossaryEntries (f : Field) : List (String × Avro) :=
  if f.relatedTerms.length > 0 then [("x-glossary", .arr (f.relatedTerms.map .str))] else []

/-- `x-lineage` provenance strings (source lines 67-72): one
`"[name].[field]"` string per input entry, emitted (possibly as an empty
list) whenever `lineage` is present with an `inputFields` key. -/
def lineageEntries (f : Field) : List (String × Avro) :=
  match f.lineage with
  | some l =>
    match l.inputFields with
    | some es => [("x-lineage",
        .arr (es.map (fun e => .str ("[" ++ e.name ++ "].[" ++ e.field ++ "]"))))]
    | none => []
  | none => []

/-- `default` attachment (source lines 81-84): only when the config has
`avroDefault` and its `avroType` is not `"enum"` (an absent `avroType`
compares unequal to `"enum"`, so the default is attached). -/
def defaultEntries (f : Field) : List (String × Avro) :=
  match f.config with
  | some cfg =>
    match cfg.avroDefault with
    | some d => if cfg.avroType ≠ some "enum" then [("default", d)] else []
    | none => []
  | none => []

mutual


/-- `to_avro_type` (source lines 89-106): the config-override resolution
prefix; falls through to the type-tag dispatch `to_avro_tag_type`.
`if field.config:` (truthiness) is modelled by matching on presence: an
empty config passes every inner key-presence test negatively, so the
behaviour coincides. -/
def to_avro_type (f : Field) (fieldName : String) (ns : Option String)
    (cache : List String) : Option (Avro × List String) :=
  match f.config with
  | some cfg =>
    match cfg.avroLogicalType, cfg.avroType with
    | some lt, some t =>
      some (.obj [("type", .str t), ("logicalType", .str lt)], cache)
    | some lt, none =>
      if lt = "timestamp-millis" ∨ lt = "timestamp-micros" ∨ lt = "local-timestamp-millis"
          ∨ lt = "local-timestamp-micros" ∨ lt = "time-micros" then
        some (.obj [("type", .str "long"), ("logicalType", .str lt)], cache)
      else if lt = "time-millis" ∨ lt = "date" then
        some (.obj [("type", .str "int"), ("logicalType", .str lt)], cache)
      else
        to_avro_tag_type f fieldName ns cache
    | none, some t =>
      if t = "enum" then
        some (.obj [("type", .str "enum"), ("name", .str fieldName),
          ("symbols", .arr (f.enum.map .str))], cache)
      else
        to_avro_tag_type f fieldName ns cache
    | none, none => to_avro_tag_type f fieldName ns cache
  | none => to_avro_tag_type f fieldName ns cache
termination_by 4 * sizeOf f + 2
decreasing_by all_goals simp_wf <;> omega

/-- `to_avro_type` (source lines 108-177): dispatch on the declared type
tag (Python `field.type in [...]` chains become disjunctions of string
equations). -/
def to_avro_tag_type (f : Field) (fieldName : String) (ns : Option String)
    (cache : List String) : Option (Avro × List String) :=
  match f.type with
  | none => some (.str "null", cache)
  | some t =>
    if t = "string" ∨ t = "varchar" ∨ t = "text" then some (.str "string", cache)
    else if t = "number" ∨ t = "numeric" then some (.str "bytes", cache)
    else if t = "decimal" then
      some (.obj ([("type", .str "bytes"), ("logicalType", .str "decimal")]
        ++ (match f.scale with | some s => [("scale", Avro.int s)] | none => [])
        ++ (match f.precision with | some p => [("precision", Avro.int p)] | none => [])), cache)
    else if t = "float" then some (.str "float", cache)
    else if t = "double" then some (.str "double", cache)
    else if t = "integer" ∨ t = "int" then some (.str "int", cache)
    else if t = "long" ∨ t = "bigint" then some (.str "long", cache)
    else if t = "boolean" then some (.str "boolean", cache)
    else if t = "timestamp" ∨ t = "timestamp_tz" then
      some (.obj [("type", .str "long"), ("logicalType", .str "timestamp-millis")], cache)
    else if t = "timestamp_ntz" then
      some (.obj [("type", .str "long"), ("logicalType", .str "local-timestamp-millis")], cache)
    else if t = "date" then
      some (.obj [("type", .str "int"), ("logicalType", .str "date")], cache)
    else if t = "time" then some (.str "long", cache)
    else if t = "map" then
      match f.config with
      | some c =>
        match c.values with
        | some v => some (.obj [("type", .str "map"), ("values", v)], cache)
        | none => some (.str "bytes", cache)
      | none => some (.str "bytes", cache)
    else if t = "object" ∨ t = "record" ∨ t = "struct" then
      if structKey f.config fieldName ns ∈ cache then
        some (.str (structRef f.config fieldName ns), cache)
      else
        to_avro_record (structName f.config fieldName) f.fields none (structNs f.config ns)
          (structKey f.config fieldName ns :: cache)
    else if t = "binary" then some (.str "bytes", cache)
    else if t = "array" then
      if cfgHasName f.config then
        match hit : f.items with
        | none => none
        | some it =>
          match it.config with
          | none => none
          | some icfg =>
            match icfg.avroType with
            | none => none
            | some s =>
              match to_avro_type it s ns cache with
              | none => none
              | some (et, cache') =>
                some (.obj [("type", .str "array"), ("items", et)], cache')
      else
        match hit : f.items with
        | none => none
        | some it =>
          match to_avro_type it fieldName ns cache with
          | none => none
          | some (et, cache') =>
            some (.obj [("type", .str "array"), ("items", et)], cache')
    else if t = "null" then some (.str "null", cache)
    else some (.str "bytes", cache)
termination_by 4 * sizeOf f + 1
decreasing_by all_goals (simp_wf; cases f; simp_all; omega)

/-- `to_avro_field` (source lines 51-86): builds the emitted field dict in
insertion order, wraps optional fields in `["null", type]`, replaces a
`"enum"`-valued type entry by an inline enum object, and conditionally
attaches `default`. -/
def to_avro_field (f : Field) (fieldName : String) (ns : Option String)
    (cache : List String) : Option (Avro × List String) :=
  match to_avro_type f fieldName ns cache with
  | none => none
  | some (avroType, cache') =>
    let wrapped := if f.required.getD true then avroType
      else .arr [.str "null", avroType]
    let entries := [("name", Avro.str fieldName)] ++ docEntry f.description
      ++ [("type", wrapped)] ++ tagsEntries f ++ glossaryEntries f ++ lineageEntries f
    let entries := if isEnumStr wrapped then
        setKey entries "type" (.obj [("type", .str "enum"), ("name", optStrAvro f.title),
          ("symbols", .arr (f.enum.map .str))])
      else entries
    some (.obj (entries ++ defaultEntries f), cache')
termination_by 4 * sizeOf f + 3
decreasing_by all_goals simp_wf <;> omega

/-- `to_avro_fields` (source lines 44-48): converts the ordered field
mapping, threading the cache left to right. -/
def to_avro_fields : List (String × Field) → Option String → List String →
    Option (List Avro × List String)
  | [], _, cache => some ([], cache)
  | (n, f) :: rest, ns, cache =>
    match to_avro_field f n ns cache with
    | none => none
    | some (a, cache') =>
      match to_avro_fields rest ns cache' with
      | none => none
      | some (as_, cache'') => some (a :: as_, cache'')
termination_by l _ _ => 4 * sizeOf l
decreasing_by all_goals simp_wf <;> omega

/-- `to_avro_record` (source lines 34-41): the record envelope
`{type, name, doc?, namespace?, fields}`. -/
def to_avro_record (name : String) (flds : List (String × Field))
    (description : Option String) (ns : Option String) (cache : List String) :
    Option (Avro × List String) :=
  match to_avro_fields flds ns cache with
  | none => none
  | some (fs, cache') =>
    some (.obj ([("type", .str "record"), ("name", .str name)]
      ++ docEntry description ++ nsEntry ns ++ [("fields", .arr fs)]), cache')
termination_by 4 * sizeOf flds + 1
decreasing_by all_goals simp_wf <;> omega

end

/-- `to_avro_schema` (source lines 16-25): resolves the effective record
name and namespace from the model's config overrides, then builds the
record.  `if model.config:` truthiness is modelled by presence, as for
fields. -/
def to_avro_schema (modelName : String) (m : Model) (cache : List String) :
    Option (Avro × List String) :=
  let name := match m.config with
    | some c =>
      match c.avroType with
      | some s => s
      | none => modelName
    | none => modelName
  let ns := match m.config with
    | some c =>
      match c.avroNamespace with
      | some s => some s
      | none => m.ns
    | none => m.ns
  to_avro_record name m.fields m.description ns cache


set_option maxHeartbeats 2000000 in
/-- The definition cache only grows: every converter function returns an
output cache containing its input cache. -/
theorem cache_subset_all :
    (∀ (f : Field) (fieldName : String) (ns : Option String) (cache : List String),
      ∀ r cache', to_avro_type f fieldName ns cache = some (r, cache') → cache ⊆ cache') ∧
    (∀ (f : Field) (fieldName : String) (ns : Option String) (cache : List String),
      ∀ r cache', to_avro_tag_type f fieldName ns cache = some (r, cache') → cache ⊆ cache') ∧
    (∀ (name : String) (flds : List (String × Field)) (description ns : Option String)
      (cache : List String),
      ∀ r cache', to_avro_record name flds description ns cache = some (r, cache') → cache ⊆ cache') ∧
    (∀ (flds : List (String × Field)) (ns : Option String) (cache : List String),
      ∀ rs cache', to_avro_fields flds ns cache = some (rs, cache') → cache ⊆ cache') ∧
    (∀ (f : Field) (fieldName : String) (ns : Option String) (cache : List String),
      ∀ r cache', to_avro_field f fieldName ns cache = some (r, cache') → cache ⊆ cache') := by
  apply to_avro_type.mutual_induct
  all_goals try
    (intros; rename_i hr
     first
       | rw [to_avro_type.eq_def] at hr
       | rw [to_avro_tag_type.eq_def] at hr
       | rw [to_avro_record.eq_def] at hr
       | rw [to_avro_fields.eq_def] at hr
       | rw [to_avro_field.eq_def] at hr
     simp_all
     done)
  all_goals try
    (intro f fieldName ns cache
     intros; rename_i hr
     obtain ⟨ty, req, de, ti, en, sc, pr, it0, fl, tg, rt, li, cf⟩ := f
     first
       | rw [to_avro_tag_type.eq_def] at hr
       | rw [to_avro_field.eq_def] at hr
       | rw [to_avro_type.eq_def] at hr
     try simp_all
     repeat' split at hr
     all_goals try simp_all
     all_goals solve_by_elim [List.Subset.refl, List.Subset.trans]
     done)
  all_goals try
    (intros; rename_i hr
     simp_all [to_avro_record, to_avro_fields]
     all_goals solve_by_elim [List.Subset.refl, List.Subset.trans]
     done)

mutual

/-- Well-formedness of array fields: every array field carries an element
descriptor and, when the array field's own config has the key `"name"`,
the element's config carries `avroType`.  These are exactly the
conditions under which the array branch (source lines 167-173) cannot
raise an attribute/key error. -/
def arrayOk : Field → Bool
  | .mk ty _ _ _ _ _ _ items flds _ _ _ cfg =>
    (match ty with
     | some t =>
       if t = "array" then
         match items with
         | none => false
         | some it =>
           (if cfgHasName cfg then
              (match it.config with
               | some icfg => icfg.avroType.isSome
               | none => false)
            else true)
           && arrayOk it
       else true
     | none => true)
    && arrayOkList flds

def arrayOkList : List (String × Field) → Bool
  | [] => true
  | (_, g) :: rest => arrayOk g && arrayOkList rest

end

set_option maxHeartbeats 2000000 in
/-- The conversion functions never raise on inputs whose array fields are
well-formed in the sense of `arrayOk`. -/
theorem total_all :
    (∀ (f : Field) (fieldName : String) (ns : Option String) (cache : List String),
      arrayOk f = true → (to_avro_type f fieldName ns cache).isSome) ∧
    (∀ (f : Field) (fieldName : String) (ns : Option String) (cache : List String),
      arrayOk f = true → (to_avro_tag_type f fieldName ns cache).isSome) ∧
    (∀ (name : String) (flds : List (String × Field)) (description ns : Option String)
      (cache : List String),
      arrayOkList flds = true → (to_avro_record name flds description ns cache).isSome) ∧
    (∀ (flds : List (String × Field)) (ns : Option String) (cache : List String),
      arrayOkList flds = true → (to_avro_fields flds ns cache).isSome) ∧
    (∀ (f : Field) (fieldName : String) (ns : Option String) (cache : List String),
      arrayOk f = true → (to_avro_field f fieldName ns cache).isSome) := by
  apply to_avro_type.mutual_induct
  all_goals try
    (intros; rename_i harr
     first
       | rw [to_avro_type.eq_def]
       | rw [to_avro_tag_type.eq_def]
     simp_all
     done)
  all_goals try
    (intro f fieldName ns cache
     intros; rename_i harr
     obtain ⟨ty, req, de, ti, en, sc, pr, it0, fl, tg, rt, li, cf⟩ := f
     first
       | rw [to_avro_tag_type.eq_def]
       | rw [to_avro_field.eq_def]
       | rw [to_avro_type.eq_def]
     try simp_all [arrayOk]
     done)
  all_goals try
    (intros; rename_i harr
     simp_all [to_avro_record, to_avro_fields, arrayOkList]
     done)
  · intro f fieldName ns cache s hty h1 h2 h3 h4 h5 h6 h7 h8 h9 h10 h11 h12 h13 hstruct hmem ih harr
    obtain ⟨ty, req, de, ti, en, sc, pr, it0, fl, tg, rt, li, cf⟩ := f
    simp only [Field.type] at hty
    subst hty
    rw [to_avro_tag_type.eq_def]
    rcases hstruct with h | h | h <;> subst h <;>
      (rw [arrayOk.eq_def] at harr; simp at harr; simp_all)
  · intro f fieldName ns cache hname it hitems icfg hicfg s hs et cache' hcall
    intros
    obtain ⟨ty, req, de, ti, en, sc, pr, it0, fl, tg, rt, li, cf⟩ := f
    obtain ⟨ity, ireq, ide, iti, ien, isc, ipr, iit, ifl, itg, irt, ili, icf⟩ := it
    simp only [Field.type, Field.items, Field.config] at *
    subst_vars
    rw [to_avro_tag_type.eq_def]
    simp_all
  · intro f fieldName ns cache hname it hitems et cache' hcall
    intros
    obtain ⟨ty, req, de, ti, en, sc, pr, it0, fl, tg, rt, li, cf⟩ := f
    simp only [Field.type, Field.items, Field.config] at *
    subst_vars
    rw [to_avro_tag_type.eq_def]
    simp_all

/-- The config states under which `to_avro_type` (source lines 90-106)
falls through to the type-tag dispatch: no logical-type override and no
enum type override. -/
def dispatchReady : Option Config → Prop
  | some c => c.avroLogicalType = none ∧ c.avroType ≠ some "enum"
  | none => True

theorem to_avro_type_eq_tag (f : Field) (fieldName : String) (ns : Option String)
    (cache : List String) (h : dispatchReady f.config) :
    to_avro_type f fieldName ns cache = to_avro_tag_type f fieldName ns cache := by
  rcases hc : f.config with _ | c
  · rw [to_avro_type.eq_def, hc]
  · rw [to_avro_type.eq_def, hc]
    rw [hc] at h
    simp only [dispatchReady] at h
    obtain ⟨h1, h2⟩ := h
    rcases ht : c.avroType with _ | t
    · simp [h1, ht]
    · have hne : t ≠ "enum" := fun e => h2 (by rw [ht, e])
      simp [h1, ht, hne]

/-- Evaluation of the structured-type branch (source lines 145-163). -/
theorem to_avro_type_struct (f : Field) (fieldName : String) (ns : Option String)
    (cache : List String) (hd : dispatchReady f.config)
    (ht : f.type = some "object" ∨ f.type = some "record" ∨ f.type = some "struct") :
    to_avro_type f fieldName ns cache =
      if structKey f.config fieldName ns ∈ cache then
        some (.str (structRef f.config fieldName ns), cache)
      else
        to_avro_record (structName f.config fieldName) f.fields none (structNs f.config ns)
          (structKey f.config fieldName ns :: cache) := by
  rw [to_avro_type_eq_tag f fieldName ns cache hd]
  obtain ⟨ty, req, de, ti, en, sc, pr, it0, fl, tg, rt, li, cf⟩ := f
  simp only [Field.type] at ht
  rw [to_avro_tag_type.eq_def]
  rcases ht with h | h | h <;> subst h <;> simp

/-- The final value of the emitted field's `type` entry: optional
wrapping (source line 57) followed by the inline-enum replacement
(source lines 74-79). -/
def emittedType (f : Field) (mapped : Avro) : Avro :=
  let wrapped := if f.required.getD true then mapped else .arr [.str "null", mapped]
  if isEnumStr wrapped then
    .obj [("type", .str "enum"), ("name", optStrAvro f.title),
      ("symbols", .arr (f.enum.map .str))]
  else wrapped

/-- The association list of the emitted field dict, in insertion order. -/
def fieldEntries (f : Field) (fieldName : String) (mapped : Avro) : List (String × Avro) :=
  [("name", Avro.str fieldName)] ++ docEntry f.description
    ++ [("type", emittedType f mapped)] ++ tagsEntries f ++ glossaryEntries f
    ++ lineageEntries f ++ defaultEntries f

/-- Characterisation of `to_avro_field` on a successful type mapping. -/
theorem to_avro_field_eq (f : Field) (fieldName : String) (ns : Option String)
    (cache : List String) (mapped : Avro) (cache' : List String)
    (hmap : to_avro_type f fieldName ns cache = some (mapped, cache')) :
    to_avro_field f fieldName ns cache =
      some (.obj (fieldEntries f fieldName mapped), cache') := by
  obtain ⟨ty, req, de, ti, en, sc, pr, it0, fl, tg, rt, li, cf⟩ := f
  rw [to_avro_field.eq_def, hmap]
  rcases de with _ | d <;>
    by_cases he : isEnumStr (if req.getD true then mapped
      else Avro.arr [Avro.str "null", mapped]) = true <;>
    simp [he, emittedType, fieldEntries, setKey, docEntry]

theorem lookupKey_append (a b : List (String × Avro)) (k : String) :
    lookupKey (a ++ b) k = (match lookupKey a k with
      | some v => some v
      | none => lookupKey b k) := by
  induction a with
  | nil => simp [lookupKey]
  | cons p rest ih =>
    rcases p with ⟨k1, v1⟩
    simp only [List.cons_append, lookupKey]
    split <;> simp [ih]

theorem lookupKey_docEntry (d : Option String) (k : String) (h : ¬ "doc" = k) :
    lookupKey (docEntry d) k = none := by
  cases d <;> simp [lookupKey, h]

theorem lookupKey_tagsEntries (f : Field) (k : String) (h : ¬ "tags" = k) :
    lookupKey (tagsEntries f) k = none := by
  rcases ht : f.tags with _ | ts <;> simp only [tagsEntries, ht]
  · simp [lookupKey]
  · split <;> simp [lookupKey, h]

theorem lookupKey_glossaryEntries (f : Field) (k : String) (h : ¬ "x-glossary" = k) :
    lookupKey (glossaryEntries f) k = none := by
  simp only [glossaryEntries]
  split <;> simp [lookupKey, h]

theorem lookupKey_lineageEntries (f : Field) (k : String) (h : ¬ "x-lineage" = k) :
    lookupKey (lineageEntries f) k = none := by
  rcases hl : f.lineage with _ | l <;> simp only [lineageEntries, hl]
  · simp [lookupKey]
  · rcases hes : l.inputFields with _ | es <;> simp [lookupKey, h]

/-- The emitted field dict's `type` entry is the wrapped/replaced type. -/
theorem lookupKey_fieldEntries_type (f : Field) (fieldName : String) (mapped : Avro) :
    lookupKey (fieldEntries f fieldName mapped) "type" = some (emittedType f mapped) := by
  simp [fieldEntries, lookupKey_append, lookupKey, lookupKey_docEntry]

/-- The emitted field dict's `default` entry: present exactly when the
config carries `avroDefault` and its `avroType` is not `"enum"`. -/
theorem lookupKey_fieldEntries_default (f : Field) (fieldName : String) (mapped : Avro) :
    lookupKey (fieldEntries f fieldName mapped) "default" =
      (match f.config with
       | some cfg =>
         (match cfg.avroDefault with
          | some d => if cfg.avroType ≠ some "enum" then some d else none
          | none => none)
       | none => none) := by
  obtain ⟨ty, req, de, ti, en, sc, pr, it0, fl, tg, rt, li, cf⟩ := f
  rcases cf with _ | cfg
  · simp [fieldEntries, lookupKey_append, lookupKey, lookupKey_docEntry,
      lookupKey_tagsEntries, lookupKey_glossaryEntries, lookupKey_lineageEntries,
      defaultEntries]
  · rcases hd : cfg.avroDefault with _ | d
    · simp [fieldEntries, lookupKey_append, lookupKey, lookupKey_docEntry,
        lookupKey_tagsEntries, lookupKey_glossaryEntries, lookupKey_lineageEntries,
        defaultEntries, hd]
    · by_cases he : cfg.avroType = some "enum" <;>
        simp [fieldEntries, lookupKey_append, lookupKey, lookupKey_docEntry,
          lookupKey_tagsEntries, lookupKey_glossaryEntries, lookupKey_lineageEntries,
          defaultEntries, hd, he]

/-! ### Concrete fixtures used by witnesses and counterexamples -/

/-- A plain `string`-typed field with no further attributes. -/
def strField : Field := Field.mk (some "string") none none none [] none none none [] none [] none none

/-- An `object`-typed field with one string subfield `x` and no config. -/
def structField : Field :=
  Field.mk (some "object") none none none [] none none none [("x", strField)] none [] none none

/-- A `decimal` field with `scale = 2`, `precision = 10`, no config. -/
def decimalField : Field :=
  Field.mk (some "decimal") none none none [] (some 2) (some 10) none [] none [] none none

/-- A `decimal` field with `scale = 2`, `precision = 10` and a config
`avroLogicalType = "date"` override. -/
def decimalOverrideField : Field :=
  Field.mk (some "decimal") none none none [] (some 2) (some 10) none [] none [] none
    (some ⟨none, none, some "date", none, none, false⟩)

/-- A field with no type tag and no config. -/
def noTypeField : Field := Field.mk none none none none [] none none none [] none [] none none

/-! ### Claims -/

/-- C9 (corrected), counterexample: a `decimal` field with `scale = 2` and
`precision = 10` whose config carries `avroLogicalType = "date"` maps to
`{type: int, logicalType: date}`, not to the decimal object the claim
demands for every such field. -/
theorem C9_cex :
    to_avro_type decimalOverrideField "price" none [] =
      some (.obj [("type", .str "int"), ("logicalType", .str "date")], []) ∧
    Avro.obj [("type", .str "int"), ("logicalType", .str "date")] ≠
      Avro.obj [("type", .str "bytes"), ("logicalType", .str "decimal"),
        ("scale", .int 2), ("precision", .int 10)] := by
  constructor
  · simp [to_avro_type, decimalOverrideField]
  · simp

/-- C9 (corrected), amended claim: for every `decimal`-typed field whose
config carries no logical-type override and no enum type override, the
mapped type is `{type: bytes, logicalType: decimal}` with `scale` and
`precision` keys present exactly when the corresponding attributes are;
in particular `scale = 2, precision = 10` yields
`{type: bytes, logicalType: decimal, scale: 2, precision: 10}`. -/
theorem C9_decimal (f : Field) (fieldName : String) (ns : Option String) (cache : List String)
    (hd : dispatchReady f.config) (ht : f.type = some "decimal") :
    to_avro_type f fieldName ns cache =
      some (.obj ([("type", .str "bytes"), ("logicalType", .str "decimal")]
        ++ (match f.scale with | some s => [("scale", Avro.int s)] | none => [])
        ++ (match f.precision with | some p => [("precision", Avro.int p)] | none => [])),
        cache) := by
  rw [to_avro_type_eq_tag f fieldName ns cache hd]
  obtain ⟨ty, req, de, ti, en, sc, pr, it0, fl, tg, rt, li, cf⟩ := f
  simp only [Field.type] at ht
  subst ht
  rw [to_avro_tag_type.eq_def]
  simp

theorem C9_decimal_witness :
    dispatchReady decimalField.config ∧
      to_avro_type decimalField "price" none [] =
        some (.obj [("type", .str "bytes"), ("logicalType", .str "decimal"),
          ("scale", .int 2), ("precision", .int 10)], []) := by
  refine ⟨by simp [decimalField, dispatchReady], ?_⟩
  rw [C9_decimal decimalField "price" none [] (by simp [decimalField, dispatchReady])
    (by simp [decimalField])]
  simp [decimalField]

/-- C10 (confirmed): a field whose type tag is absent and whose config
carries no applicable override maps to the scalar `"null"` (source lines
108-109), not the opaque-binary fallback. -/
theorem C10_null_tag (f : Field) (fieldName : String) (ns : Option String)
    (cache : List String) (hd : dispatchReady f.config) (ht : f.type = none) :
    to_avro_type f fieldName ns cache = some (.str "null", cache) := by
  rw [to_avro_type_eq_tag f fieldName ns cache hd]
  obtain ⟨ty, req, de, ti, en, sc, pr, it0, fl, tg, rt, li, cf⟩ := f
  simp only [Field.type] at ht
  subst ht
  rw [to_avro_tag_type.eq_def]
  simp

theorem C10_null_tag_witness :
    dispatchReady noTypeField.config ∧
      to_avro_type noTypeField "f" none [] = some (.str "null", []) :=
  ⟨by simp [noTypeField, dispatchReady],
   C10_null_tag noTypeField "f" none [] (by simp [noTypeField, dispatchReady])
     (by simp [noTypeField])⟩

/-- An `enum`-tagged field (title `Color`, symbols `X`, `Y`) with no
config at all. -/
def enumTagField : Field :=
  Field.mk (some "enum") none none (some "Color") ["X", "Y"] none none none [] none [] none none

/-- An `enum`-tagged field carrying a config `avroDefault` (and no
`avroType`). -/
def enumDefaultField : Field :=
  Field.mk (some "enum") none none (some "T") ["X", "Y"] none none none [] none [] none
    (some ⟨none, none, none, some (Avro.int 1), none, false⟩)

/-- An `object`-typed field with title `Color` and symbol list `X`,
no config; mapped under field name `"enum"` with its cache key already
cached, the mapper returns the bare string `"enum"`. -/
def structEnumNameField : Field :=
  Field.mk (some "object") none none (some "Color") ["X"] none none none [] none [] none none

/-- Like `structEnumNameField` but with title `T` and symbols `A`
(separate fixture for C8). -/
def structEnumNameField2 : Field :=
  Field.mk (some "object") none none (some "T") ["A"] none none none [] none [] none none

/-- A `string`-typed field with `required = false`. -/
def optionalStrField : Field :=
  Field.mk (some "string") (some false) none none [] none none none [] none [] none none

/-- C1 (corrected), counterexample: a field whose declared tag is `enum`
with no config override maps through the unrecognized-tag fallback to
`"bytes"`; the emitted type is the string `"bytes"`, not the inline enum
object the claim demands. -/
theorem C1_cex :
    to_avro_field enumTagField "color" none [] =
      some (.obj [("name", .str "color"), ("type", .str "bytes")], []) ∧
    Avro.str "bytes" ≠ Avro.obj [("type", .str "enum"), ("name", .str "Color"),
      ("symbols", .arr [.str "X", .str "Y"])] := by
  constructor
  · simp [to_avro_field, to_avro_type, to_avro_tag_type, enumTagField, isEnumStr, setKey,
      tagsEntries, glossaryEntries, lineageEntries, defaultEntries, docEntry]
  · simp

/-- C1 (corrected), amended claim: the inline-enum replacement (source
lines 74-79) fires exactly when the mapped type is the literal string
`"enum"` and the field is required; the emitted type is then the inline
enum object `{type: enum, name: field.title, symbols: field.enum}`.  A
bare `enum` type tag never produces the string `"enum"`; it falls through
to the `"bytes"` fallback. -/
theorem C1_enum_inline (f : Field) (fieldName : String) (ns : Option String)
    (cache : List String) (cache' : List String)
    (hmap : to_avro_type f fieldName ns cache = some (.str "enum", cache'))
    (hreq : f.required ≠ some false) :
    ∃ entries, to_avro_field f fieldName ns cache = some (.obj entries, cache') ∧
      lookupKey entries "type" = some (.obj [("type", .str "enum"),
        ("name", optStrAvro f.title), ("symbols", .arr (f.enum.map .str))]) := by
  obtain ⟨ty, req, de, ti, en, sc, pr, it0, fl, tg, rt, li, cf⟩ := f
  simp only [Field.required] at hreq
  refine ⟨fieldEntries _ fieldName (.str "enum"),
    to_avro_field_eq _ fieldName ns cache (.str "enum") cache' hmap, ?_⟩
  rw [lookupKey_fieldEntries_type]
  have hr : req.getD true = true := by
    rcases req with _ | b
    · rfl
    · cases b
      · exact absurd rfl hreq
      · rfl
  simp [emittedType, hr, isEnumStr]

theorem C1_enum_inline_witness :
    to_avro_type structEnumNameField "enum" none ["None.enum"] =
      some (.str "enum", ["None.enum"]) ∧
    (∃ entries, to_avro_field structEnumNameField "enum" none ["None.enum"] =
        some (.obj entries, ["None.enum"]) ∧
      lookupKey entries "type" = some (.obj [("type", .str "enum"),
        ("name", .str "Color"), ("symbols", .arr [.str "X"])])) := by
  constructor
  · simp [to_avro_type, to_avro_tag_type, structEnumNameField, structKey, structNs,
      structName, structRef, pyOptStr, cfgHasName]
  · obtain ⟨e, h1, h2⟩ := C1_enum_inline structEnumNameField "enum" none ["None.enum"]
      ["None.enum"]
      (by simp [to_avro_type, to_avro_tag_type, structEnumNameField, structKey, structNs,
        structName, structRef, pyOptStr, cfgHasName])
      (by simp [structEnumNameField])
    exact ⟨e, h1, by simpa [structEnumNameField, optStrAvro] using h2⟩

/-- C2 (corrected), counterexample: a field whose declared tag is `enum`
but whose config has `avroDefault` (and no `avroType`) does get a
`default` entry — the suppression tests the config's `avroType`, not the
declared tag. -/
theorem C2_cex :
    to_avro_field enumDefaultField "e" none [] =
      some (.obj [("name", .str "e"), ("type", .str "bytes"), ("default", .int 1)], []) := by
  simp [to_avro_field, to_avro_type, to_avro_tag_type, enumDefaultField, isEnumStr, setKey,
    tagsEntries, glossaryEntries, lineageEntries, defaultEntries, docEntry]

/-- C2 (corrected), amended claim: the emitted field carries a `default`
entry iff the config has `avroDefault` and the config's `avroType` is not
`"enum"` (source lines 81-84); the declared type tag plays no role. -/
theorem C2_default_key (f : Field) (fieldName : String) (ns : Option String)
    (cache : List String) (mapped : Avro) (cache' : List String)
    (hmap : to_avro_type f fieldName ns cache = some (mapped, cache')) :
    ∃ entries, to_avro_field f fieldName ns cache = some (.obj entries, cache') ∧
      lookupKey entries "default" =
        (match f.config with
         | some cfg =>
           (match cfg.avroDefault with
            | some d => if cfg.avroType ≠ some "enum" then some d else none
            | none => none)
         | none => none) :=
  ⟨fieldEntries f fieldName mapped, to_avro_field_eq f fieldName ns cache mapped cache' hmap,
    lookupKey_fieldEntries_default f fieldName mapped⟩

theorem C2_default_key_witness :
    ∃ entries, to_avro_field enumDefaultField "e" none [] = some (.obj entries, []) ∧
      lookupKey entries "default" = some (Avro.int 1) := by
  obtain ⟨entries, h1, h2⟩ := C2_default_key enumDefaultField "e" none [] (.str "bytes") []
    (by simp [to_avro_type, to_avro_tag_type, enumDefaultField])
  exact ⟨entries, h1, by simpa [enumDefaultField] using h2⟩

/-- C8 (corrected), counterexample: a required field whose mapped type is
the literal string `"enum"` (an already-cached structured type resolving
to the name `enum`) is emitted with the inline enum object, not with the
bare mapped type the claim demands for every required field. -/
theorem C8_cex :
    to_avro_type structEnumNameField2 "enum" none ["None.enum"] =
      some (.str "enum", ["None.enum"]) ∧
    to_avro_field structEnumNameField2 "enum" none ["None.enum"] =
      some (.obj [("name", .str "enum"),
        ("type", .obj [("type", .str "enum"), ("name", .str "T"),
          ("symbols", .arr [.str "A"])])], ["None.enum"]) ∧
    Avro.obj [("type", .str "enum"), ("name", .str "T"), ("symbols", .arr [.str "A"])] ≠
      Avro.str "enum" := by
  refine ⟨?_, ?_, by simp⟩
  · simp [to_avro_type, to_avro_tag_type, structEnumNameField2, structKey, structNs,
      structName, structRef, pyOptStr, cfgHasName]
  · simp [to_avro_field, to_avro_type, to_avro_tag_type, structEnumNameField2, structKey,
      structNs, structName, structRef, pyOptStr, cfgHasName, isEnumStr, setKey,
      tagsEntries, glossaryEntries, lineageEntries, defaultEntries, docEntry, optStrAvro]

/-- C8 (corrected), amended claim: for a required field (required true or
absent) the emitted type is the bare mapped type unless the mapped type
is the literal string `"enum"`, which is replaced by the inline enum
object; for `required = false` the emitted type is the union
`[null, mappedType]` with null first, unconditionally. -/
theorem C8_optionality (f : Field) (fieldName : String) (ns : Option String)
    (cache : List String) (mapped : Avro) (cache' : List String)
    (hmap : to_avro_type f fieldName ns cache = some (mapped, cache')) :
    ∃ entries, to_avro_field f fieldName ns cache = some (.obj entries, cache') ∧
      lookupKey entries "type" = some (
        if f.required.getD true then
          (if isEnumStr mapped then
            .obj [("type", .str "enum"), ("name", optStrAvro f.title),
              ("symbols", .arr (f.enum.map .str))]
          else mapped)
        else .arr [.str "null", mapped]) := by
  obtain ⟨ty, req, de, ti, en, sc, pr, it0, fl, tg, rt, li, cf⟩ := f
  refine ⟨fieldEntries _ fieldName mapped,
    to_avro_field_eq _ fieldName ns cache mapped cache' hmap, ?_⟩
  rw [lookupKey_fieldEntries_type]
  by_cases hr : req.getD true = true
  · simp [emittedType, hr]
  · simp [emittedType, hr, isEnumStr]

theorem C8_optionality_witness :
    ∃ entries, to_avro_field optionalStrField "s" none [] = some (.obj entries, []) ∧
      lookupKey entries "type" = some (.arr [.str "null", .str "string"]) := by
  obtain ⟨entries, h1, h2⟩ := C8_optionality optionalStrField "s" none [] (.str "string") []
    (by simp [to_avro_type, to_avro_tag_type, optionalStrField])
  exact ⟨entries, h1, by simpa [optionalStrField, isEnumStr] using h2⟩

/-- An element descriptor whose config names `avroType = "enum"` with
symbol list `A` (and no other attributes). -/
def enumElemField : Field :=
  Field.mk none none none none ["A"] none none none [] none [] none
    (some ⟨some "enum", none, none, none, none, false⟩)

/-- An `array`-typed field with element `enumElemField` and no config of
its own (in particular no `"name"` key). -/
def arrayNoNameField : Field :=
  Field.mk (some "array") none none none [] none none (some enumElemField) [] none [] none none

/-- An `array`-typed field whose own config has the `"name"` key, with a
plain string element that carries `avroType = "elem"`. -/
def arrayNamedField : Field :=
  Field.mk (some "array") none none none [] none none
    (some (Field.mk (some "string") none none none [] none none none [] none [] none
      (some ⟨some "elem", none, none, none, none, true⟩)))
    [] none [] none (some ⟨none, none, none, none, none, true⟩)

/-- C3 (corrected), counterexample: the element descriptor's config names
the override `avroType = "enum"`, yet — because the array field's own
config lacks the `"name"` key — the element is mapped with the array
field's own name `"arr"` as context, not with the override name; the
resulting inline enum is named `arr`, where the claim demands `enum`. -/
theorem C3_cex :
    to_avro_type arrayNoNameField "arr" none [] =
      some (.obj [("type", .str "array"),
        ("items", .obj [("type", .str "enum"), ("name", .str "arr"),
          ("symbols", .arr [.str "A"])])], []) ∧
    to_avro_type enumElemField "enum" none [] =
      some (.obj [("type", .str "enum"), ("name", .str "enum"),
        ("symbols", .arr [.str "A"])], []) ∧
    Avro.obj [("type", .str "array"), ("items", .obj [("type", .str "enum"),
      ("name", .str "arr"), ("symbols", .arr [.str "A"])])] ≠
    Avro.obj [("type", .str "array"), ("items", .obj [("type", .str "enum"),
      ("name", .str "enum"), ("symbols", .arr [.str "A"])])] := by
  refine ⟨?_, ?_, by simp⟩
  · simp [to_avro_type, to_avro_tag_type, arrayNoNameField, enumElemField, cfgHasName]
  · simp [to_avro_type, enumElemField]

/-- C3 (corrected), amended claim: for an `array`-typed field (reaching
the tag dispatch) carrying an element descriptor: if the array field's
own config contains the key `"name"`, the element is mapped using the
element descriptor's `avroType` config value as the field-name context
(raising if the element has no config or no `avroType`); otherwise the
element is mapped using the array field's own name.  In both cases the
result is `{type: array, items: <mapped element type>}`. -/
theorem C3_array (f it : Field) (fieldName : String) (ns : Option String) (cache : List String)
    (hd : dispatchReady f.config) (ht : f.type = some "array") (hit : f.items = some it) :
    to_avro_type f fieldName ns cache =
      (if cfgHasName f.config then
        (match it.config with
         | none => none
         | some icfg =>
           (match icfg.avroType with
            | none => none
            | some s =>
              (match to_avro_type it s ns cache with
               | none => none
               | some (et, cache') =>
                 some (.obj [("type", .str "array"), ("items", et)], cache'))))
      else
        (match to_avro_type it fieldName ns cache with
         | none => none
         | some (et, cache') =>
           some (.obj [("type", .str "array"), ("items", et)], cache'))) := by
  rw [to_avro_type_eq_tag f fieldName ns cache hd]
  obtain ⟨ty, req, de, ti, en, sc, pr, it0, fl, tg, rt, li, cf⟩ := f
  obtain ⟨ity, ireq, ide, iti, ien, isc, ipr, iit, ifl, itg, irt, ili, icf⟩ := it
  simp only [Field.type, Field.items] at ht hit
  subst ht hit
  rw [to_avro_tag_type.eq_def]
  simp

theorem C3_array_witness :
    cfgHasName arrayNamedField.config = true ∧
    to_avro_type arrayNamedField "arr" none [] =
      some (.obj [("type", .str "array"), ("items", .str "string")], []) := by
  refine ⟨by simp [arrayNamedField, cfgHasName], ?_⟩
  rw [C3_array arrayNamedField
    (Field.mk (some "string") none none none [] none none none [] none [] none
      (some ⟨some "elem", none, none, none, none, true⟩))
    "arr" none [] (by simp [arrayNamedField, dispatchReady]) (by simp [arrayNamedField])
    (by simp [arrayNamedField])]
  simp [arrayNamedField, cfgHasName, to_avro_type, to_avro_tag_type]

/-- A structured field whose config renames it to `T` in namespace
`other` (so its identity differs from the enclosing namespace). -/
def nsStructField : Field :=
  Field.mk (some "object") none none none [] none none none [] none [] none
    (some ⟨some "T", some "other", none, none, none, false⟩)

/-- C5 (confirmed): an already-cached structured type is referenced by
its fully qualified `"namespace.name"` when its resolved namespace
differs from the enclosing namespace, and by its bare name when the
namespaces are equal (source lines 156-159). -/
theorem C5_cached_ref (f : Field) (fieldName : String) (ns : Option String)
    (cache : List String) (hd : dispatchReady f.config)
    (ht : f.type = some "object" ∨ f.type = some "record" ∨ f.type = some "struct")
    (hin : structKey f.config fieldName ns ∈ cache) :
    to_avro_type f fieldName ns cache =
      some (.str (if structNs f.config ns ≠ ns
        then pyOptStr (structNs f.config ns) ++ "." ++ structName f.config fieldName
        else structName f.config fieldName), cache) := by
  rw [to_avro_type_struct f fieldName ns cache hd ht, if_pos hin]
  simp [structRef]

theorem C5_cached_ref_witness :
    (structKey nsStructField.config "child" (some "home") ∈ (["other.T"] : List String)) ∧
    to_avro_type nsStructField "child" (some "home") ["other.T"] =
      some (.str "other.T", ["other.T"]) ∧
    to_avro_type structField "p" none ["None.p"] = some (.str "p", ["None.p"]) := by
  refine ⟨by simp [nsStructField, structKey, structNs, structName, pyOptStr], ?_, ?_⟩
  · rw [C5_cached_ref nsStructField "child" (some "home") ["other.T"]
      (by simp [nsStructField, dispatchReady]) (by simp [nsStructField])
      (by simp [nsStructField, structKey, structNs, structName, pyOptStr])]
    simp [nsStructField, structNs, structName, pyOptStr]
  · rw [C5_cached_ref structField "p" none ["None.p"]
      (by simp [structField, dispatchReady]) (by simp [structField])
      (by simp [structField, structKey, structNs, structName, pyOptStr])]
    simp [structField, structNs, structName, pyOptStr]

/-- C4 (confirmed): within one run, for two structured fields resolving
to the same (namespace, name) identity not yet cached, the first
occurrence emits a full inline record definition and caches the
identity, and every subsequent occurrence emits a bare/qualified name
reference leaving the cache unchanged — the identity is never defined in
full twice. -/
theorem C4_dedup (f1 f2 : Field) (n1 n2 : String) (ns : Option String) (c0 : List String)
    (r1 : Avro) (c1 : List String)
    (hd1 : dispatchReady f1.config) (hd2 : dispatchReady f2.config)
    (ht1 : f1.type = some "object" ∨ f1.type = some "record" ∨ f1.type = some "struct")
    (ht2 : f2.type = some "object" ∨ f2.type = some "record" ∨ f2.type = some "struct")
    (hns : structNs f2.config ns = structNs f1.config ns)
    (hnm : structName f2.config n2 = structName f1.config n1)
    (hnotin : structKey f1.config n1 ns ∉ c0)
    (hrun : to_avro_type f1 n1 ns c0 = some (r1, c1)) :
    (∃ rest, r1 = .obj (("type", .str "record") ::
      ("name", .str (structName f1.config n1)) :: rest)) ∧
    structKey f1.config n1 ns ∈ c1 ∧
    to_avro_type f2 n2 ns c1 = some (.str (structRef f2.config n2 ns), c1) := by
  rw [to_avro_type_struct f1 n1 ns c0 hd1 ht1, if_neg hnotin] at hrun
  have hkey : structKey f2.config n2 ns = structKey f1.config n1 ns := by
    simp only [structKey, hns, hnm]
  have hmem : structKey f1.config n1 ns ∈ c1 :=
    cache_subset_all.2.2.1 _ _ _ _ _ _ _ hrun (List.mem_cons_self _ _)
  refine ⟨?_, hmem, ?_⟩
  · have h' := hrun
    simp only [to_avro_record] at h'
    rcases hfs : to_avro_fields f1.fields (structNs f1.config ns)
        (structKey f1.config n1 ns :: c0) with _ | ⟨fs, c⟩ <;> rw [hfs] at h'
    · cases h'
    · simp only [Option.some.injEq, Prod.mk.injEq] at h'
      refine ⟨nsEntry (structNs f1.config ns) ++ [("fields", .arr fs)], ?_⟩
      rw [← h'.1]
      simp [docEntry]
  · rw [to_avro_type_struct f2 n2 ns c1 hd2 ht2, hkey, if_pos hmem]

theorem C4_dedup_witness :
    (∃ rest, Avro.obj [("type", Avro.str "record"), ("name", Avro.str "p"),
        ("fields", Avro.arr [Avro.obj [("name", Avro.str "x"), ("type", Avro.str "string")]])] =
      Avro.obj (("type", Avro.str "record") :: ("name", Avro.str "p") :: rest)) ∧
    "None.p" ∈ (["None.p"] : List String) ∧
    to_avro_type structField "p" none ["None.p"] = some (.str "p", ["None.p"]) := by
  have h := C4_dedup structField structField "p" "p" none []
    (Avro.obj [("type", Avro.str "record"), ("name", Avro.str "p"),
      ("fields", Avro.arr [Avro.obj [("name", Avro.str "x"), ("type", Avro.str "string")]])])
    ["None.p"]
    (by simp [structField, dispatchReady]) (by simp [structField, dispatchReady])
    (by simp [structField]) (by simp [structField]) rfl rfl (by simp)
    (by simp [to_avro_type, to_avro_tag_type, to_avro_record, to_avro_fields, to_avro_field,
      structField, strField, structKey, structNs, structName, pyOptStr, cfgHasName,
      isEnumStr, setKey, tagsEntries, glossaryEntries, lineageEntries, defaultEntries,
      docEntry, nsEntry])
  simpa [structField, structKey, structNs, structName, structRef, pyOptStr] using h

/-- The model `{p: structField}`, no namespace, no config. -/
def structModel : Model := ⟨none, none, [("p", structField)], none⟩

/-- First-run output schema of `structModel`: nested record inlined. -/
def structModelRun1 : Avro :=
  .obj [("type", .str "record"), ("name", .str "m"),
    ("fields", .arr [.obj [("name", .str "p"),
      ("type", .obj [("type", .str "record"), ("name", .str "p"),
        ("fields", .arr [.obj [("name", .str "x"), ("type", .str "string")]])])]])]

/-- Second-run output schema of `structModel`: nested record collapsed to
a bare name reference. -/
def structModelRun2 : Avro :=
  .obj [("type", .str "record"), ("name", .str "m"),
    ("fields", .arr [.obj [("name", .str "p"), ("type", .str "p")]])]

/-- C7 (corrected), counterexample: converting the same model twice in
one process — the second call starting from the cache left by the first
— produces different schemas, so the two-run equality claimed for
sequential same-process calls fails. -/
theorem C7_cex :
    to_avro_schema "m" structModel [] = some (structModelRun1, ["None.p"]) ∧
    to_avro_schema "m" structModel ["None.p"] = some (structModelRun2, ["None.p"]) ∧
    structModelRun1 ≠ structModelRun2 := by
  refine ⟨?_, ?_, by simp [structModelRun1, structModelRun2]⟩ <;>
    simp [to_avro_schema, to_avro_type, to_avro_tag_type, to_avro_record, to_avro_fields,
      to_avro_field, structModel, structField, strField, structKey, structNs, structName,
      structRef, pyOptStr, cfgHasName, isEnumStr, setKey, tagsEntries, glossaryEntries,
      lineageEntries, defaultEntries, docEntry, nsEntry, structModelRun1, structModelRun2]

/-- C7 (corrected), amended claim: the transformation is deterministic as
a function of the input and the cache state — two calls on the same
(model name, model) input from equal cache states produce equal results.
A second sequential call in the same process inherits the first call's
cache and can produce a different (reference-collapsed) schema. -/
theorem C7_det (modelName : String) (m : Model) (c1 c2 : List String) (h : c1 = c2) :
    to_avro_schema modelName m c1 = to_avro_schema modelName m c2 := by rw [h]

theorem C7_det_witness :
    to_avro_schema "m" structModel [] = to_avro_schema "m" structModel [] :=
  C7_det "m" structModel [] [] rfl

/-- An `array`-typed field with no element descriptor. -/
def badArrayField : Field :=
  Field.mk (some "array") none none none [] none none none [] none [] none none

/-- A model containing only the malformed array field. -/
def badArrayModel : Model := ⟨none, none, [("a", badArrayField)], none⟩

/-- C6 (corrected), counterexample: an array field with no element
descriptor makes the conversion raise (modelled as `none`): not every
input field-descriptor tree converts. -/
theorem C6_cex : to_avro_schema "m" badArrayModel [] = none := by
  simp [to_avro_schema, to_avro_record, to_avro_fields, to_avro_field, to_avro_type,
    to_avro_tag_type, badArrayModel, badArrayField, cfgHasName]

/-- C6 (corrected), amended claim: the conversion completes without
raising on every model whose array fields all carry element descriptors
and — when the array field's config has the key `"name"` — whose element
configs carry `avroType`; unrecognized type tags degrade to the `"bytes"`
fallback rather than failing. -/
theorem C6_total (modelName : String) (m : Model) (cache : List String)
    (h : arrayOkList m.fields = true) :
    (to_avro_schema modelName m cache).isSome = true := by
  simp only [to_avro_schema]
  exact total_all.2.2.1 _ _ _ _ _ h

theorem C6_total_witness :
    arrayOkList structModel.fields = true ∧
      (to_avro_schema "m" structModel []).isSome = true :=
  ⟨by simp [structModel, arrayOkList, arrayOk, structField, strField, cfgHasName],
   C6_total "m" structModel []
     (by simp [structModel, arrayOkList, arrayOk, structField, strField, cfgHasName])⟩

end DCAvro
